import Mathlib

/-!
# Verification of the cjdns SessionManager / Pathfinder core

A shallow embedding of `net/SessionManager.c` and `dht/Pathfinder.c`.

Modelling conventions:
* Machine integers (`uint32_t`, `uint64_t`) are `Nat`, with an explicit
  `% 2^32` where the C code can overflow (handle arithmetic).
* Millisecond clocks (`int64_t` in the C code) are `Int`.
* External collaborators that are not part of this repository's two source
  files (the CryptoAuth primitive, `AddressCalc`, the slotted `util/Map.h`)
  are modelled explicitly; each such definition carries a comment.  The
  address-derivation hash is passed around as a function parameter
  `a : Nat → Ip6`; the outcome of a `CryptoAuth_decrypt` call is an oracle
  parameter (`decryptErr`, with 0 meaning success, mirroring
  `enum CryptoAuth_DecryptErr`).
* C functions that can hit `Assert_true` / `Assert_failure` (process abort)
  return `Option`; `none` is the fatal-assertion outcome.
* Emitted PFChan frames are collected in a `List Event`; a handler's frame
  disposition (drop / reply on switch interface / forward inside) is a
  `SwitchResult`.
-/

/-- A 16-byte IPv6 address, split as first byte (the 0xfc prefix byte) plus
the remaining 15 bytes (abstracted to one number). -/
structure Ip6 where
  firstByte : Nat
  rest : Nat
deriving DecidableEq

/-- `AddressCalc_validAddress`: cjdns addresses start with byte 0xfc.
Modelled from the spec: `crypto/AddressCalc.h` is not under `src/`;
"Addresses: IPv6 with the first byte fixed at 0xFC". -/
def Ip6.validAddress (ip : Ip6) : Bool :=
  ip.firstByte == 0xfc

/-- Handle numbers 0-3 are reserved for CryptoAuth nonces
(`#define MIN_FIRST_HANDLE 4`). -/
def MIN_FIRST_HANDLE : Nat := 4

/-- `#define MAX_FIRST_HANDLE 100000`. -/
def MAX_FIRST_HANDLE : Nat := 100000

/-- Modelled from the spec: `wire/Metric.h` is not under `src/`.  The spec
says "lower is better; `DEAD_LINK` is the worst sentinel", so `DEAD_LINK`
is the largest `uint32_t`.  The claims use the constants symbolically. -/
def Metric_DEAD_LINK : Nat := 0xffffffff

/-- Modelled from the spec: metric assigned to sessions discovered from an
incoming switch-side handshake (`wire/Metric.h` is not under `src/`). -/
def Metric_SM_INCOMING : Nat := 0xffff0000

/-- Modelled from the spec: metric assigned to sessions created from the
inside interface (`wire/Metric.h` is not under `src/`). -/
def Metric_SM_SEND : Nat := 0xffff0001

/-- Modelled from the spec: CryptoAuth handshake states
(`crypto/CryptoAuth.h` is not under `src/`).  A fresh session starts in
the initial state. -/
def CryptoAuth_State_INIT : Nat := 0

/-- Modelled from the spec: the state from which the peer's key is known;
states below it mean "the crypto session has not yet received the peer's
key" (`crypto/CryptoAuth.h` is not under `src/`). -/
def CryptoAuth_State_RECEIVED_KEY : Nat := 4

/-- Modelled from the spec: `ContentType_CJDHT` is the reserved DHT content
type of the 4-byte data header (`wire/DataHeader.h` is not under `src/`). -/
def ContentType_CJDHT : Nat := 256

/-- `SwitchHeader_SIZE` (12 bytes: u64 label, version/flags, congestion,
sequence).  Modelled from the spec; `wire/SwitchHeader.h` not under `src/`. -/
def SwitchHeader_SIZE : Nat := 12

/-- Modelled from the spec: current switch header version constant. -/
def SwitchHeader_CURRENT_VERSION : Nat := 1

/-- `CryptoHeader_SIZE`, the big handshake header.  Modelled from the spec;
`wire/CryptoHeader.h` is not under `src/`. -/
def CryptoHeader_SIZE : Nat := 120

/-- `RouteHeader_SIZE` (switch header + flags + version + ip6 + public key).
Modelled from the spec; `wire/RouteHeader.h` is not under `src/`. -/
def RouteHeader_SIZE : Nat := 68

/-- `DataHeader_SIZE` (4-byte envelope).  Modelled from the spec. -/
def DataHeader_SIZE : Nat := 4

/-- Modelled from the spec: `Control_ERROR` control-frame type
(`wire/Control.h` is not under `src/`). -/
def Control_ERROR : Nat := 2

/-- Modelled from the spec: `Error_AUTHENTICATION` error code
(`wire/Error.h` is not under `src/`). -/
def Error_AUTHENTICATION : Nat := 6

/-- `Bits_bitReverse64` on the low 64 bits: bit `i` moves to bit `63 - i`. -/
def reverseBitsAux : Nat → Nat → Nat
  | 0, _ => 0
  | n + 1, x => (x % 2) * 2 ^ n + reverseBitsAux n (x / 2)

/-- `Bits_bitReverse64`. -/
def bitReverse64 (x : Nat) : Nat :=
  reverseBitsAux 64 x

/-- The session-manager view of one session
(`struct SessionManager_Session` plus the private `foundKey` latch and the
observable state of its exclusively owned CryptoAuth session:
`herIp6`, `herPublicKey` and `caState` mirror `caSession->herIp6`,
`caSession->herPublicKey` and `CryptoAuth_getState(caSession)`). -/
structure Session where
  herIp6 : Ip6
  herPublicKey : Nat
  version : Nat
  maintainSession : Bool
  sendSwitchLabel : Nat
  recvSwitchLabel : Nat
  metric : Nat
  receiveHandle : Nat
  sendHandle : Nat
  timeOfLastIn : Int
  timeOfKeepAliveIn : Int
  timeOfLastOut : Int
  lastSearchTime : Int
  bytesIn : Nat
  bytesOut : Nat
  caState : Nat
  foundKey : Bool
deriving DecidableEq

/-- The payload of a `struct PFChan_Node` event frame (host byte order;
the wire encoding is big-endian but byte order is not modelled). -/
structure PFNode where
  path : Nat
  metric : Nat
  version : Nat
  publicKey : Nat
  ip6 : Ip6
deriving DecidableEq

/-- The Core → Pathfinder event kinds emitted by the session manager. -/
inductive CoreEv where
  | SESSION
  | SESSION_ENDED
  | DISCOVERED_PATH
  | UNSETUP_SESSION
deriving DecidableEq

/-- A frame emitted on the session manager's `eventIf`:
either a `PFChan_Node`-carrying event (`sendSession` / `unsetupSession`)
or a `SEARCH_REQ` (`triggerSearch`), with its destination pathfinder id. -/
inductive Event where
  | node (ev : CoreEv) (destPf : Nat) (n : PFNode)
  | search (destPf : Nat) (version : Nat) (target : Ip6)
deriving DecidableEq

/-- One slot of the `Map_OfSessionsByIp6` handle-enabled map:
key, slot handle, and the stored session.  Modelled from the spec:
`util/Map.h` is not under `src/`; the spec says handles are "a monotone
integer assigned by the underlying slotted map". -/
structure MapEntry where
  key : Ip6
  handle : Nat
  sess : Session
deriving DecidableEq

/-- One slot of the `Map_BufferedMessages` table
(`struct BufferedMessage`): destination ip6 key, send time, and the
buffered message's data-header content type and an abstract payload id. -/
structure BufEntry where
  key : Ip6
  timeSent : Int
  contentType : Nat
  msgId : Nat
deriving DecidableEq

/-- `struct SessionManager_pvt` (the fields the embedded code reads). -/
structure SessionManager where
  ifaceMap : List MapEntry
  nextHandle : Nat
  bufMap : List BufEntry
  firstHandle : Nat
  sessionTimeoutMilliseconds : Int
  sessionSearchAfterMilliseconds : Int
  maxBufferedMessages : Nat
deriving DecidableEq

/-- `Map_OfSessionsByIp6_indexForHandle(handle - sm->firstHandle, ...)`:
the `uint32_t` subtraction `h - firstHandle`, as a `Nat` with explicit
wraparound. -/
def slotOf (firstHandle h : Nat) : Nat :=
  (2 ^ 32 + h - firstHandle) % 2 ^ 32

/-- `check()` (SessionManager.c:144): once the crypto session knows the
peer's key, verify the ip6↔key binding exactly once and latch `foundKey`.
`none` is the `Assert_true(!Bits_memcmp(...))` failure. -/
def check (a : Nat → Ip6) (e : MapEntry) : Option MapEntry :=
  if e.sess.foundKey then some e
  else if e.sess.herPublicKey ≠ 0 then
    if a e.sess.herPublicKey = e.key then
      some { e with sess := { e.sess with foundKey := true } }
    else none
  else some e

/-- Find the first entry satisfying `p`, run `check` on it, and store the
checked entry back in place (the common `indexFor… ; check(sm, index)`
pattern of `sessionForHandle` / `sessionForIp6`). Returns the updated
entry list and the checked entry, `none` on assertion failure. -/
def findCheck (a : Nat → Ip6) (p : MapEntry → Bool) :
    List MapEntry → Option (List MapEntry × Option MapEntry)
  | [] => some ([], none)
  | e :: rest =>
    if p e then
      match check a e with
      | none => none
      | some e1 => some (e1 :: rest, some e1)
    else
      match findCheck a p rest with
      | none => none
      | some (rest1, r) => some (e :: rest1, r)

/-- Store a session back into the map slot holding `ip6` (the C code
mutates the session through the pointer returned by the lookup). -/
def setSess (ip6 : Ip6) (s : Session) : List MapEntry → List MapEntry
  | [] => []
  | e :: rest =>
    if e.key == ip6 then { e with sess := s } :: rest
    else e :: setSess ip6 s rest

/-- `SessionManager_sessionForIp6` (via the static `sessionForIp6`):
lookup by ip6, running `check` on a hit. -/
def sessionForIp6 (a : Nat → Ip6) (ip6 : Ip6) (sm : SessionManager) :
    Option (SessionManager × Option Session) :=
  match findCheck a (fun e => e.key == ip6) sm.ifaceMap with
  | none => none
  | some (l, r) => some ({ sm with ifaceMap := l }, r.map (fun e => e.sess))

/-- `SessionManager_sessionForHandle` (via the static `sessionForHandle`):
lookup by `handle - firstHandle`, running `check` on a hit. -/
def sessionForHandle (a : Nat → Ip6) (h : Nat) (sm : SessionManager) :
    Option (SessionManager × Option Session) :=
  match findCheck a (fun e => e.handle == slotOf sm.firstHandle h) sm.ifaceMap with
  | none => none
  | some (l, r) => some ({ sm with ifaceMap := l }, r.map (fun e => e.sess))

/-- The update `getSession` performs on an already-existing session
(SessionManager.c:215-234): adopt a version if none was known, OR in
`maintainSession`, then either handle a broken path
(`metric == Metric_DEAD_LINK`) or adopt a better path. -/
def sessionUpdate (sess : Session) (version label metric : Nat)
    (maintainSession : Bool) : Session :=
  let s1 := { sess with
    version := if sess.version ≠ 0 then sess.version else version,
    maintainSession := sess.maintainSession || maintainSession }
  if metric = Metric_DEAD_LINK then
    if s1.sendSwitchLabel = label then
      if s1.sendSwitchLabel = s1.recvSwitchLabel then
        { s1 with sendSwitchLabel := 0, metric := Metric_DEAD_LINK }
      else
        { s1 with sendSwitchLabel := s1.recvSwitchLabel,
                  metric := Metric_SM_INCOMING }
    else s1
  else if metric ≤ s1.metric ∧ label ≠ 0 then
    { s1 with sendSwitchLabel := label,
              version := if version ≠ 0 then version else s1.version,
              metric := metric }
  else s1

/-- `sendSession()`: the `PFChan_Node` payload built from a session and an
explicit path argument.  (The C code stores the metric via
`Endian_bigEndianToHost32` instead of `hostToBigEndian32`; both are the
same byte swap, and byte order is not modelled.) -/
def pfNodeOf (path : Nat) (sess : Session) : PFNode :=
  { path := path, metric := sess.metric, version := sess.version,
    publicKey := sess.herPublicKey, ip6 := sess.herIp6 }

/-- The session `getSession` builds on a miss (SessionManager.c:237-268):
the CryptoAuth session starts in the initial state with
`herIp6`/`herPublicKey` as bound here (creation asserts
`AddressCalc_addressForPublicKey(pubKey) == ip6` whenever `pubKey` is
non-zero, so `herIp6` is the map key); all other fields are `calloc`
zeroes, the three in/out clocks are `now`, and `foundKey` is latched
exactly when the key is non-zero.  `receiveHandle` is the map's slot
handle plus the random `firstHandle` base (uint32 arithmetic). -/
def newSession (now : Int) (receiveHandle : Nat) (ip6 : Ip6)
    (pubKey version label metric : Nat) (maintainSession : Bool) : Session :=
  { herIp6 := ip6, herPublicKey := pubKey,
    version := version, maintainSession := maintainSession,
    sendSwitchLabel := label, recvSwitchLabel := 0,
    metric := metric,
    receiveHandle := receiveHandle,
    sendHandle := 0,
    timeOfLastIn := now, timeOfKeepAliveIn := now,
    timeOfLastOut := now, lastSearchTime := 0,
    bytesIn := 0, bytesOut := 0,
    caState := CryptoAuth_State_INIT, foundKey := pubKey ≠ 0 }

/-- `getSession()` (SessionManager.c:204-273): get-or-create.
`a` is the AddressCalc hash, `now` the current time.  On a hit the session
is updated with `sessionUpdate`; on a miss a `newSession` is appended to
the map and a `SESSION` event is broadcast.  The trailing
`check(sm, ifaceIndex)` of the C code is a no-op on a fresh session
(`foundKey` is already latched exactly when the key is non-zero), so it is
not repeated here. -/
def getSession (a : Nat → Ip6) (now : Int) (sm : SessionManager) (ip6 : Ip6)
    (pubKey version label metric : Nat) (maintainSession : Bool) :
    Option (SessionManager × Session × List Event) :=
  if ¬ ip6.validAddress then none
  else
    match findCheck a (fun e => e.key == ip6) sm.ifaceMap with
    | none => none
    | some (l1, some e) =>
      let s1 := sessionUpdate e.sess version label metric maintainSession
      some ({ sm with ifaceMap := setSess ip6 s1 l1 }, s1, [])
    | some (l1, none) =>
      if pubKey ≠ 0 ∧ a pubKey ≠ ip6 then none
      else
        let sess := newSession now ((sm.nextHandle + sm.firstHandle) % 2 ^ 32)
          ip6 pubKey version label metric maintainSession
        some ({ sm with ifaceMap := l1 ++ [⟨ip6, sm.nextHandle, sess⟩],
                        nextHandle := sm.nextHandle + 1 },
              sess,
              [Event.node CoreEv.SESSION 0xffffffff (pfNodeOf label sess)])

/-- Well-formedness of the session table: distinct keys and slot handles,
every stored `receiveHandle` is its slot handle plus `firstHandle`
(uint32), the crypto session's ip6 is the map key, and a non-zero peer key
hashes to the key (the relation `check` asserts). -/
def SessionManager.wf (a : Nat → Ip6) (sm : SessionManager) : Prop :=
  (sm.ifaceMap.map (fun e => e.key)).Nodup ∧
  (sm.ifaceMap.map (fun e => e.handle)).Nodup ∧
  sm.firstHandle < 2 ^ 32 ∧
  ∀ e ∈ sm.ifaceMap,
    e.sess.receiveHandle = (e.handle + sm.firstHandle) % 2 ^ 32 ∧
    e.handle < 2 ^ 32 ∧
    e.sess.herIp6 = e.key ∧
    (e.sess.herPublicKey ≠ 0 → a e.sess.herPublicKey = e.key)

/-- The fields of an incoming switch-side frame that
`incomingFromSwitchIf` reads.  `label` is the (host value of the) on-wire
label field, which arrives bit-reversed; `len` is `msg->length` on entry;
`innerNonce` is the second 32-bit word (the nonce under an established
handle); `pubKey` is the claimed key of the crypto header (handshake
frames); `first16` abstracts the first 16 bytes of ciphertext;
`contentType` and `plainLen` describe the plaintext in case decryption
succeeds (`plainLen` is `msg->length` once the route header has been
prepended); `sendHandleWord` is the handle popped from a decrypted setup
message. -/
structure SwitchFrame where
  len : Nat
  label : Nat
  nonceOrHandle : Nat
  innerNonce : Nat
  pubKey : Nat
  first16 : Nat
  contentType : Nat
  plainLen : Nat
  sendHandleWord : Nat
deriving DecidableEq

/-- The reply frame built by `failedDecrypt()` (SessionManager.c:286-307),
outermost first: a fresh switch header (SuppressErrors, current version,
`label`), the sentinel handle word, the checksummed `Control_ERROR`
envelope with `Error_AUTHENTICATION`, and the payload: the offending
frame's original switch header (its on-wire label as `causeLabel`), the
first 16 bytes of ciphertext, the decrypt error code, and the crypto
state snapshot.  (The checksum itself is the external `Checksum_engine`
and is not modelled.) -/
structure FailedDecryptReply where
  suppressErrors : Bool
  shVersion : Nat
  label : Nat
  handleWord : Nat
  ctrlType : Nat
  errorCode : Nat
  causeLabel : Nat
  first16 : Nat
  decryptErr : Nat
  cryptoState : Nat
deriving DecidableEq

/-- What `incomingFromSwitchIf` does with the frame: silently drop,
forward a control frame to the inside interface, send a failed-decrypt
reply on the switch interface, or forward the decrypted payload (for the
session keyed by the given ip6) to the inside interface. -/
inductive SwitchResult where
  | drop
  | ctrlToInside
  | failedDecryptReply (r : FailedDecryptReply)
  | toInside (key : Ip6)
deriving DecidableEq

/-- The session mutations of SessionManager.c:407-449 after a successful
decrypt, up to (not including) the `recvSwitchLabel` comparison: pop the
peer's send handle on a setup message, update `timeOfLastIn` (non-CJDHT
content only), `bytesIn` and `timeOfKeepAliveIn`, mirror the crypto state,
and adopt the path as `sendSwitchLabel` if none was set. -/
def postDecryptSess3 (now : Int) (caStateAfter : Nat) (f : SwitchFrame)
    (setup : Bool) (sess : Session) : Session :=
  let sess1 := if setup then { sess with sendHandle := f.sendHandleWord } else sess
  let sess2 := { sess1 with
    timeOfLastIn :=
      if f.contentType ≠ ContentType_CJDHT then now else sess1.timeOfLastIn,
    bytesIn := sess1.bytesIn + f.plainLen,
    timeOfKeepAliveIn := now,
    caState := caStateAfter }
  if sess2.sendSwitchLabel = 0 then
    { sess2 with sendSwitchLabel := bitReverse64 f.label }
  else sess2

/-- The shared tail of `incomingFromSwitchIf` after the session is known
(SessionManager.c:386-455): attempt decryption; on failure build the
`failedDecrypt` reply addressed along the bit-reversed label (the variable
`label_be` is captured at line 402, before line 403 restores the embedded
header's label to its on-wire form, which becomes the reply's
`causeLabel`); on success apply `postDecryptSess3` and emit
`DISCOVERED_PATH` when the path differs from `recvSwitchLabel`.
`none` is the `Assert_true(msg->length >= DataHeader_SIZE)` failure. -/
def postDecrypt (now : Int) (decryptErr caStateAfter : Nat) (f : SwitchFrame)
    (setup : Bool) (key : Ip6) (sess : Session) (sm : SessionManager)
    (evs : List Event) : Option (SessionManager × List Event × SwitchResult) :=
  let routeLabel := bitReverse64 f.label
  if decryptErr ≠ 0 then
    some (sm, evs, SwitchResult.failedDecryptReply
      { suppressErrors := true, shVersion := SwitchHeader_CURRENT_VERSION,
        label := routeLabel, handleWord := 0xffffffff,
        ctrlType := Control_ERROR, errorCode := Error_AUTHENTICATION,
        causeLabel := f.label, first16 := f.first16,
        decryptErr := decryptErr, cryptoState := caStateAfter })
  else if f.plainLen < RouteHeader_SIZE + DataHeader_SIZE then none
  else
    let sess3 := postDecryptSess3 now caStateAfter f setup sess
    if routeLabel ≠ sess3.recvSwitchLabel then
      let sess4 := { sess3 with recvSwitchLabel := routeLabel }
      some ({ sm with ifaceMap := setSess key sess4 sm.ifaceMap },
            evs ++ [Event.node CoreEv.DISCOVERED_PATH 0xffffffff (pfNodeOf routeLabel sess4)],
            SwitchResult.toInside key)
    else
      some ({ sm with ifaceMap := setSess key sess3 sm.ifaceMap },
            evs, SwitchResult.toInside key)

/-- `incomingFromSwitchIf()` (SessionManager.c:309-456).  `a` is the
AddressCalc hash, `myPublicKey` this node's key, and
`decryptErr`/`caStateAfter` the oracle outcome of the external
`CryptoAuth_decrypt` / `CryptoAuth_getState` calls.  (The
`CryptoAuth_resetIfTimeout` call touches only crypto-internal state and is
not modelled.) -/
def incomingFromSwitchIf (a : Nat → Ip6) (myPublicKey : Nat) (now : Int)
    (decryptErr caStateAfter : Nat) (sm : SessionManager) (f : SwitchFrame) :
    Option (SessionManager × List Event × SwitchResult) :=
  if f.len < SwitchHeader_SIZE + 4 then some (sm, [], SwitchResult.drop)
  else if f.nonceOrHandle = 0xffffffff then some (sm, [], SwitchResult.ctrlToInside)
  -- The two runt checks below run after the Message_eshift at line 321 has
  -- popped the 12-byte switch header, so the C compares the remaining
  -- length (entry length minus SwitchHeader_SIZE) against 4+20 and
  -- CryptoHeader_SIZE+4.
  else if f.len - SwitchHeader_SIZE < 4 + 20 then some (sm, [], SwitchResult.drop)
  else if 3 < f.nonceOrHandle then
    match findCheck a (fun e => e.handle == slotOf sm.firstHandle f.nonceOrHandle)
        sm.ifaceMap with
    | none => none
    | some (_, none) => some (sm, [], SwitchResult.drop)
    | some (l1, some e) =>
      if f.innerNonce < 4 then some ({ sm with ifaceMap := l1 }, [], SwitchResult.drop)
      else
        postDecrypt now decryptErr caStateAfter f false e.key e.sess
          { sm with ifaceMap := l1 } []
  else if f.len - SwitchHeader_SIZE < CryptoHeader_SIZE + 4 then
    some (sm, [], SwitchResult.drop)
  else
    let ip6 := a f.pubKey
    if ¬ ip6.validAddress then some (sm, [], SwitchResult.drop)
    else if f.pubKey = myPublicKey then some (sm, [], SwitchResult.drop)
    else
      match getSession a now sm ip6 f.pubKey 0 (bitReverse64 f.label)
          Metric_SM_INCOMING false with
      | none => none
      | some (sm1, sess, evs) =>
        postDecrypt now decryptErr caStateAfter f true ip6 sess sm1 evs

/-- `checkTimedOutBuffers()` (SessionManager.c:458-468): drop buffered
messages whose lag reached 10 s. -/
def checkTimedOutBuffers (now : Int) (l : List BufEntry) : List BufEntry :=
  l.filter (fun b => now - b.timeSent < 10000)

/-- `unsetupSession()` (SessionManager.c:470-490): emit `UNSETUP_SESSION`
for a session — unless the session has no version, or neither a send nor a
recv switch label, in which case nothing is sent.  The node's path is the
send label if non-zero, else the recv label.  (The C code first stores
`DEAD_LINK` into `metric_be` and then overwrites it with the session's
metric at line 482; the final store wins.) -/
def unsetupSessionEvents (s : Session) : List Event :=
  if s.version = 0 ∨ (s.sendSwitchLabel = 0 ∧ s.recvSwitchLabel = 0) then []
  else
    [Event.node CoreEv.UNSETUP_SESSION 0xffffffff
      { path := if s.sendSwitchLabel ≠ 0 then s.sendSwitchLabel else s.recvSwitchLabel,
        metric := s.metric, version := s.version,
        publicKey := s.herPublicKey, ip6 := s.herIp6 }]

/-- `triggerSearch()` (SessionManager.c:492-503) as an event value. -/
def triggerSearchEvent (target : Ip6) (version : Nat) : Event :=
  Event.search 0xffffffff version target

/-- The body of the `checkTimedOutSessions` loop for one session
(SessionManager.c:507-531): destroy (emitting `SESSION_ENDED`) on
keep-alive timeout; otherwise, only for maintained sessions, either
trigger a search when one is due (bumping `lastSearchTime`) or probe an
un-set-up session.  Returns the surviving entry (if any) and the events
emitted for it. -/
def tickEntry (now timeoutMs searchAfterMs : Int) (e : MapEntry) :
    Option MapEntry × List Event :=
  if timeoutMs < now - e.sess.timeOfKeepAliveIn then
    (none,
     [Event.node CoreEv.SESSION_ENDED 0xffffffff (pfNodeOf e.sess.sendSwitchLabel e.sess)])
  else if ¬ e.sess.maintainSession then (some e, [])
  else if searchAfterMs ≤ now - e.sess.lastSearchTime then
    (some { e with sess := { e.sess with lastSearchTime := now } },
     [triggerSearchEvent e.sess.herIp6 e.sess.version])
  else if e.sess.caState < CryptoAuth_State_RECEIVED_KEY then
    (some e, unsetupSessionEvents e.sess)
  else (some e, [])

/-- The `checkTimedOutSessions` loop, which walks the map from the last
index down to 0 (so events of later entries are emitted first). -/
def tickEntries (now timeoutMs searchAfterMs : Int) :
    List MapEntry → List MapEntry × List Event
  | [] => ([], [])
  | e :: rest =>
    let r := tickEntries now timeoutMs searchAfterMs rest
    match tickEntry now timeoutMs searchAfterMs e with
    | (none, evs) => (r.1, r.2 ++ evs)
    | (some e1, evs) => (e1 :: r.1, r.2 ++ evs)

/-- `checkTimedOutSessions()` (SessionManager.c:505-532). -/
def checkTimedOutSessions (now : Int) (sm : SessionManager) :
    SessionManager × List Event :=
  let r := tickEntries now sm.sessionTimeoutMilliseconds
    sm.sessionSearchAfterMilliseconds sm.ifaceMap
  ({ sm with ifaceMap := r.1 }, r.2)

/-- `periodically()` (SessionManager.c:534-539): the 10-second tick. -/
def periodically (now : Int) (sm : SessionManager) :
    SessionManager × List Event :=
  let r := checkTimedOutSessions now sm
  ({ r.1 with bufMap := checkTimedOutBuffers now r.1.bufMap }, r.2)

/-- The fields of an inside-interface message that the buffering path
reads: total length, the route header's destination ip6 and (host)
version, the data header's content type, and an abstract payload id. -/
structure InsideMsg where
  len : Nat
  ip6 : Ip6
  version : Nat
  contentType : Nat
  msgId : Nat
deriving DecidableEq

/-- Remove the buffered message stored under `ip6`
(`Map_BufferedMessages_indexForKey` + `Map_BufferedMessages_remove`). -/
def removeBufKey (ip6 : Ip6) : List BufEntry → List BufEntry
  | [] => []
  | b :: rest => if b.key == ip6 then rest else b :: removeBufKey ip6 rest

/-- `needsLookup()` (SessionManager.c:541-580): assert the message is big
enough and is not CJDHT traffic; displace any older buffered message to
the same ip6; if the table is at `maxBufferedMessages`, sweep timed-out
buffers and drop the new message if still full; otherwise buffer it and
emit a `SEARCH_REQ`.  (The C `setupSession` parameter is unused by the
function body.) -/
def needsLookup (now : Int) (sm : SessionManager) (m : InsideMsg)
    (_setupSession : Bool) : Option (SessionManager × List Event) :=
  if m.len < RouteHeader_SIZE + DataHeader_SIZE then none
  else if m.contentType = ContentType_CJDHT then none
  else
    let bm1 := removeBufKey m.ip6 sm.bufMap
    if sm.maxBufferedMessages ≤ bm1.length then
      let bm2 := checkTimedOutBuffers now bm1
      if sm.maxBufferedMessages ≤ bm2.length then
        some ({ sm with bufMap := bm2 }, [])
      else
        some ({ sm with bufMap := bm2 ++ [⟨m.ip6, now, m.contentType, m.msgId⟩] },
              [triggerSearchEvent m.ip6 m.version])
    else
      some ({ sm with bufMap := bm1 ++ [⟨m.ip6, now, m.contentType, m.msgId⟩] },
            [triggerSearchEvent m.ip6 m.version])

/-- `sessions()` plus the `PFChan_Pathfinder_SESSIONS` dispatch of the
session manager's `incomingFromEventIf` (SessionManager.c:720-739): the
event must carry an empty payload (`Assert_true(!msg->length)`), and one
`SESSION` event per live session is sent to the requesting pathfinder. -/
def smSessionsEvent (sm : SessionManager) (sourcePf : Nat) (payloadLen : Nat) :
    Option (SessionManager × List Event) :=
  if payloadLen ≠ 0 then none
  else
    some (sm, sm.ifaceMap.map (fun e =>
      Event.node CoreEv.SESSION sourcePf (pfNodeOf e.sess.sendSwitchLabel e.sess)))

/-- `Pathfinder_pvt_state_INITIALIZING`. -/
def Pathfinder_state_INITIALIZING : Nat := 0

/-- `Pathfinder_pvt_state_RUNNING`. -/
def Pathfinder_state_RUNNING : Nat := 1

/-- Modelled from the spec: the Core → Pathfinder event kinds of
`wire/PFChan.h` (not under `src/`); the numeric values are distinct but
otherwise arbitrary. -/
def PFChan_Core_CONNECT : Nat := 512

/-- Modelled from the spec (see `PFChan_Core_CONNECT`). -/
def PFChan_Core_SWITCH_ERR : Nat := 513

/-- Modelled from the spec (see `PFChan_Core_CONNECT`). -/
def PFChan_Core_SEARCH_REQ : Nat := 514

/-- Modelled from the spec (see `PFChan_Core_CONNECT`). -/
def PFChan_Core_PEER : Nat := 515

/-- Modelled from the spec (see `PFChan_Core_CONNECT`). -/
def PFChan_Core_PEER_GONE : Nat := 516

/-- Modelled from the spec (see `PFChan_Core_CONNECT`). -/
def PFChan_Core_SESSION : Nat := 517

/-- Modelled from the spec (see `PFChan_Core_CONNECT`). -/
def PFChan_Core_SESSION_ENDED : Nat := 518

/-- Modelled from the spec (see `PFChan_Core_CONNECT`). -/
def PFChan_Core_DISCOVERED_PATH : Nat := 519

/-- Modelled from the spec (see `PFChan_Core_CONNECT`). -/
def PFChan_Core_MSG : Nat := 520

/-- Modelled from the spec (see `PFChan_Core_CONNECT`). -/
def PFChan_Core_PING : Nat := 521

/-- Modelled from the spec (see `PFChan_Core_CONNECT`). -/
def PFChan_Core_PONG : Nat := 522

/-- Modelled from the spec: `PFChan_Core_Connect_SIZE` (our public key,
superiority, version, 64-byte user agent). -/
def PFChan_Core_Connect_SIZE : Nat := 104

/-- The pathfinder's state (`struct Pathfinder_pvt`): its lifecycle state
and whether `connected()` has constructed the DHT subsystems (registry,
rumor mill, node store, router module, search runner, janitor — all
external to this repository's sources, abstracted to one flag). -/
structure Pathfinder where
  state : Nat
  dhtConstructed : Bool
deriving DecidableEq

/-- The dispatch outcome of the pathfinder's `incomingFromEventIf`: which
handler the event was dispatched to. -/
inductive PfAction where
  | init
  | switchErr
  | searchReq
  | peer
  | peerGone
  | session
  | sessionEnded
  | discoveredPath
  | msg
  | ping
  | pong
deriving DecidableEq

/-- `connected()` (Pathfinder.c:116-182): pop the
`PFChan_Core_Connect` payload (the pop aborts if the payload is short,
and `Assert_true(!msg->length)` if it is long, so the length must be
exact), construct the DHT subsystems, and transition to `RUNNING`. -/
def pfConnected (pf : Pathfinder) (payloadLen : Nat) :
    Option (Pathfinder × PfAction) :=
  if payloadLen ≠ PFChan_Core_Connect_SIZE then none
  else some ({ pf with state := Pathfinder_state_RUNNING, dhtConstructed := true },
             PfAction.init)

/-- `incomingFromEventIf()` (Pathfinder.c:368-390): while
`INITIALIZING`, `Assert_true(ev == PFChan_Core_CONNECT)` and run
`connected`; once `RUNNING`, dispatch on the event kind, with unknown
kinds hitting `Assert_failure`. -/
def pfIncomingFromEventIf (pf : Pathfinder) (ev : Nat) (payloadLen : Nat) :
    Option (Pathfinder × PfAction) :=
  if pf.state = Pathfinder_state_INITIALIZING then
    if ev = PFChan_Core_CONNECT then pfConnected pf payloadLen
    else none
  else if ev = PFChan_Core_SWITCH_ERR then some (pf, PfAction.switchErr)
  else if ev = PFChan_Core_SEARCH_REQ then some (pf, PfAction.searchReq)
  else if ev = PFChan_Core_PEER then some (pf, PfAction.peer)
  else if ev = PFChan_Core_PEER_GONE then some (pf, PfAction.peerGone)
  else if ev = PFChan_Core_SESSION then some (pf, PfAction.session)
  else if ev = PFChan_Core_SESSION_ENDED then some (pf, PfAction.sessionEnded)
  else if ev = PFChan_Core_DISCOVERED_PATH then some (pf, PfAction.discoveredPath)
  else if ev = PFChan_Core_MSG then some (pf, PfAction.msg)
  else if ev = PFChan_Core_PING then some (pf, PfAction.ping)
  else if ev = PFChan_Core_PONG then some (pf, PfAction.pong)
  else none

/-- The session an event frame is about: the ip6 carried in its
`PFChan_Node` payload, or a `SEARCH_REQ`'s target. -/
def evTarget : Event → Ip6
  | Event.node _ _ n => n.ip6
  | Event.search _ _ t => t

/-- A concrete AddressCalc hash for witnesses: key `k` hashes to the
0xfc-prefixed address whose tail is `k`. -/
def exA : Nat → Ip6 := fun k => ⟨0xfc, k⟩

/-- A concrete cjdns address for witnesses. -/
def exIp : Ip6 := ⟨0xfc, 1⟩

/-- A concrete live session for witnesses: maintained, key already
verified, crypto session still before key reception. -/
def exSess : Session :=
  { herIp6 := exIp, herPublicKey := 1, version := 5, maintainSession := true,
    sendSwitchLabel := 9, recvSwitchLabel := 7, metric := 100,
    receiveHandle := 204, sendHandle := 3,
    timeOfLastIn := 0, timeOfKeepAliveIn := 0, timeOfLastOut := 0,
    lastSearchTime := 0, bytesIn := 0, bytesOut := 0,
    caState := 0, foundKey := true }

/-- The map slot holding `exSess` (slot handle 4, `firstHandle` 200). -/
def exEntry : MapEntry := ⟨exIp, 4, exSess⟩

/-- A concrete well-formed session manager state for witnesses. -/
def exSM : SessionManager :=
  { ifaceMap := [exEntry], nextHandle := 5, bufMap := [],
    firstHandle := 200, sessionTimeoutMilliseconds := 60000,
    sessionSearchAfterMilliseconds := 20000, maxBufferedMessages := 30 }

/-- `exSess` with `maintainSession` cleared: the pathfinder owns its
lifecycle (`RouteHeader_flags_PATHFINDER` was set when it was created). -/
def cSess : Session := { exSess with maintainSession := false }

/-- A session-manager state holding only the unmaintained `cSess`. -/
def cSM : SessionManager := { exSM with ifaceMap := [⟨exIp, 4, cSess⟩] }

/-- `exSess` with its last keep-alive 70 s in the past. -/
def tSess : Session := { exSess with timeOfKeepAliveIn := -70000 }

/-- A session-manager state holding only the timed-out `tSess`. -/
def tSM : SessionManager := { exSM with ifaceMap := [⟨exIp, 4, tSess⟩] }

/-- A concrete run-frame for `exSess` (handle 204, nonce 5) whose on-wire
label is 1. -/
def c4f : SwitchFrame :=
  { len := 40, label := 1, nonceOrHandle := 204, innerNonce := 5,
    pubKey := 0, first16 := 9, contentType := 0, plainLen := 100,
    sendHandleWord := 0 }

/-- The failed-decrypt reply `incomingFromSwitchIf` produces for `c4f`
with decrypt error 1 and crypto state 4: its outer label is
`bitReverse64 1 = 2 ^ 63`, not the on-wire label 1. -/
def c4reply : FailedDecryptReply :=
  { suppressErrors := true, shVersion := SwitchHeader_CURRENT_VERSION,
    label := 9223372036854775808, handleWord := 0xffffffff,
    ctrlType := Control_ERROR, errorCode := Error_AUTHENTICATION,
    causeLabel := 1, first16 := 9, decryptErr := 1, cryptoState := 4 }

theorem slotOf_receive (F h : Nat) (hF : F < 2 ^ 32) (hh : h < 2 ^ 32) :
    slotOf F ((h + F) % 2 ^ 32) = h := by
  unfold slotOf
  omega

theorem check_cases (a : Nat → Ip6) (e e1 : MapEntry) (h : check a e = some e1) :
    e1 = e ∨ e1 = { e with sess := { e.sess with foundKey := true } } := by
  unfold check at h
  split at h
  · exact Or.inl (Option.some.inj h).symm
  · split at h
    · split at h
      · exact Or.inr (Option.some.inj h).symm
      · cases h
    · exact Or.inl (Option.some.inj h).symm

theorem check_idem (a : Nat → Ip6) (e e1 : MapEntry) (h : check a e = some e1) :
    check a e1 = some e1 := by
  rcases check_cases a e e1 h with rfl | rfl
  · exact h
  · simp [check]

theorem findCheck_none_of (a : Nat → Ip6) (p : MapEntry → Bool) :
    ∀ l : List MapEntry, (∀ x ∈ l, p x = false) →
    findCheck a p l = some (l, none) := by
  intro l
  induction l with
  | nil => intro _; rfl
  | cons e rest ih =>
    intro h
    have he : p e = false := h e (List.mem_cons_self e rest)
    have ht := ih (fun x hx => h x (List.mem_cons_of_mem e hx))
    simp [findCheck, he, ht]

theorem findCheck_found (a : Nat → Ip6) (p : MapEntry → Bool) :
    ∀ (l l1 : List MapEntry) (e1 : MapEntry),
    findCheck a p l = some (l1, some e1) →
    e1 ∈ l1 ∧ ∃ e0 ∈ l, p e0 = true ∧ check a e0 = some e1 := by
  intro l
  induction l with
  | nil =>
    intro l1 e1 h
    simp [findCheck] at h
  | cons e rest ih =>
    intro l1 e1 h
    by_cases hp : p e
    · simp only [findCheck, hp, if_true] at h
      cases hc : check a e with
      | none => rw [hc] at h; cases h
      | some ec =>
        rw [hc] at h
        simp only [Option.some.injEq, Prod.mk.injEq] at h
        obtain ⟨rfl, rfl⟩ := h
        exact ⟨List.mem_cons_self _ _,
               e, List.mem_cons_self e rest, hp, hc⟩
    · simp only [findCheck, hp, if_false] at h
      cases hfc : findCheck a p rest with
      | none => rw [hfc] at h; cases h
      | some pr =>
        obtain ⟨rest1, r⟩ := pr
        rw [hfc] at h
        simp only [Option.some.injEq, Prod.mk.injEq] at h
        obtain ⟨rfl, rfl⟩ := h
        obtain ⟨hm, e0, he0, hpe0, hce0⟩ := ih rest1 e1 hfc
        exact ⟨List.mem_cons_of_mem e hm,
               e0, List.mem_cons_of_mem e he0, hpe0, hce0⟩

theorem setSess_append (k : Ip6) (s : Session) (h0 : Nat) (s0 : Session) :
    ∀ l : List MapEntry, (∀ x ∈ l, x.key ≠ k) →
    setSess k s (l ++ [⟨k, h0, s0⟩]) = l ++ [⟨k, h0, s⟩] := by
  intro l
  induction l with
  | nil => intro _; simp [setSess]
  | cons e rest ih =>
    intro h
    have he : (e.key == k) = false := by
      simpa using h e (List.mem_cons_self e rest)
    simp [setSess, he, ih (fun x hx => h x (List.mem_cons_of_mem e hx))]

theorem removeBufKey_sublist (k : Ip6) :
    ∀ l : List BufEntry, List.Sublist (removeBufKey k l) l := by
  intro l
  induction l with
  | nil => simp [removeBufKey]
  | cons b rest ih =>
    simp only [removeBufKey]
    split
    · exact List.sublist_cons_self b rest
    · exact ih.cons₂ b

theorem mem_removeBufKey (k : Ip6) (l : List BufEntry) (b : BufEntry)
    (h : b ∈ removeBufKey k l) : b ∈ l :=
  (removeBufKey_sublist k l).mem h

theorem not_mem_keys_removeBufKey (k : Ip6) :
    ∀ l : List BufEntry, (l.map (fun b => b.key)).Nodup →
    k ∉ (removeBufKey k l).map (fun b => b.key) := by
  intro l
  induction l with
  | nil => intro _ h; cases h
  | cons b rest ih =>
    intro hnd
    simp only [List.map_cons, List.nodup_cons] at hnd
    cases hb : (b.key == k) with
    | true =>
      have hbk : b.key = k := by simpa using hb
      simp only [removeBufKey, hb, if_true]
      rw [← hbk]
      exact hnd.1
    | false =>
      have hbk : ¬ (k = b.key) := fun hk => by simp [hk] at hb
      simp only [removeBufKey, hb, Bool.false_eq_true, if_false, List.map_cons,
        List.mem_cons, not_or]
      exact ⟨hbk, ih hnd.2⟩

theorem check_handle_fields (a : Nat → Ip6) (e e1 : MapEntry)
    (h : check a e = some e1) :
    e1.handle = e.handle ∧ e1.sess.receiveHandle = e.sess.receiveHandle := by
  rcases check_cases a e e1 h with rfl | rfl
  · exact ⟨rfl, rfl⟩
  · exact ⟨rfl, rfl⟩

theorem findCheck_roundtrip (a : Nat → Ip6) (p : MapEntry → Bool) (F : Nat)
    (hF : F < 2 ^ 32) :
    ∀ (l l1 : List MapEntry) (e1 : MapEntry),
    (l.map (fun x => x.handle)).Nodup →
    (∀ x ∈ l, x.sess.receiveHandle = (x.handle + F) % 2 ^ 32 ∧ x.handle < 2 ^ 32) →
    findCheck a p l = some (l1, some e1) →
    findCheck a (fun x => x.handle == slotOf F e1.sess.receiveHandle) l1 =
      some (l1, some e1) := by
  intro l
  induction l with
  | nil =>
    intro l1 e1 _ _ h
    simp [findCheck] at h
  | cons e rest ih =>
    intro l1 e1 hnd hprop h
    simp only [List.map_cons, List.nodup_cons] at hnd
    have heprop := hprop e (List.mem_cons_self e rest)
    by_cases hp : p e
    · simp only [findCheck, hp, if_true] at h
      cases hc : check a e with
      | none => rw [hc] at h; cases h
      | some ec =>
        rw [hc] at h
        simp only [Option.some.injEq, Prod.mk.injEq] at h
        obtain ⟨rfl, rfl⟩ := h
        have hfields := check_handle_fields a e ec hc
        have hslot : slotOf F ec.sess.receiveHandle = ec.handle := by
          rw [hfields.2, heprop.1, slotOf_receive F e.handle hF heprop.2, hfields.1]
        have hpe : (ec.handle == slotOf F ec.sess.receiveHandle) = true := by
          simp [hslot]
        simp only [findCheck, hpe, if_true, check_idem a e ec hc]
    · simp only [findCheck, hp, if_false] at h
      cases hfc : findCheck a p rest with
      | none => rw [hfc] at h; cases h
      | some pr =>
        obtain ⟨rest1, r⟩ := pr
        rw [hfc] at h
        simp only [Option.some.injEq, Prod.mk.injEq] at h
        obtain ⟨rfl, rfl⟩ := h
        have hih := ih rest1 e1 hnd.2
          (fun x hx => hprop x (List.mem_cons_of_mem e hx)) hfc
        obtain ⟨-, e0, he0, -, hce0⟩ := findCheck_found a p rest rest1 e1 hfc
        have h0fields := check_handle_fields a e0 e1 hce0
        have h0prop := hprop e0 (List.mem_cons_of_mem e he0)
        have hslot : slotOf F e1.sess.receiveHandle = e0.handle := by
          rw [h0fields.2, h0prop.1, slotOf_receive F e0.handle hF h0prop.2]
        have hne : e.handle ≠ e0.handle := by
          intro hcontra
          exact hnd.1 (hcontra ▸ List.mem_map_of_mem (fun x => x.handle) he0)
        have hpe : (e.handle == slotOf F e1.sess.receiveHandle) = false := by
          simp [hslot, hne]
        simp only [findCheck, hpe, Bool.false_eq_true, if_false, hih]

theorem tickEntries_cons (now t s : Int) (x : MapEntry) (rest : List MapEntry) :
    tickEntries now t s (x :: rest) =
      (match (tickEntry now t s x).1 with
       | none => (tickEntries now t s rest).1
       | some x1 => x1 :: (tickEntries now t s rest).1,
       (tickEntries now t s rest).2 ++ (tickEntry now t s x).2) := by
  simp only [tickEntries]
  rcases htick : tickEntry now t s x with ⟨o, evs⟩
  cases o <;> simp

theorem tickEntry_some_fields (now t s : Int) (e e1 : MapEntry)
    (h : (tickEntry now t s e).1 = some e1) :
    e1.key = e.key ∧ e1.handle = e.handle ∧ e1.sess.herIp6 = e.sess.herIp6 := by
  unfold tickEntry at h
  split at h
  · cases h
  · split at h
    · exact (Option.some.inj h).symm ▸ ⟨rfl, rfl, rfl⟩
    · split at h
      · exact (Option.some.inj h).symm ▸ ⟨rfl, rfl, rfl⟩
      · split at h
        · exact (Option.some.inj h).symm ▸ ⟨rfl, rfl, rfl⟩
        · exact (Option.some.inj h).symm ▸ ⟨rfl, rfl, rfl⟩

theorem tickEntry_events_target (now t s : Int) (e : MapEntry) (ev : Event)
    (h : ev ∈ (tickEntry now t s e).2) : evTarget ev = e.sess.herIp6 := by
  unfold tickEntry at h
  split at h
  · rcases List.mem_singleton.mp h with rfl
    rfl
  · split at h
    · cases h
    · split at h
      · rcases List.mem_singleton.mp h with rfl
        rfl
      · split at h
        · unfold unsetupSessionEvents at h
          split at h
          · cases h
          · rcases List.mem_singleton.mp h with rfl
            rfl
        · cases h

theorem tickEntries_mem_events (now t s : Int) :
    ∀ (l : List MapEntry) (e : MapEntry), e ∈ l →
    ∀ ev ∈ (tickEntry now t s e).2, ev ∈ (tickEntries now t s l).2 := by
  intro l
  induction l with
  | nil => intro e he; cases he
  | cons x rest ih =>
    intro e he ev hev
    rw [tickEntries_cons]
    rcases List.mem_cons.mp he with rfl | hmem
    · exact List.mem_append_right _ hev
    · exact List.mem_append_left _ (ih e hmem ev hev)

theorem tickEntries_surv_origin (now t s : Int) :
    ∀ (l : List MapEntry) (x : MapEntry), x ∈ (tickEntries now t s l).1 →
    ∃ x0 ∈ l, (tickEntry now t s x0).1 = some x := by
  intro l
  induction l with
  | nil => intro x hx; cases hx
  | cons y rest ih =>
    intro x hx
    rw [tickEntries_cons] at hx
    cases hy : (tickEntry now t s y).1 with
    | none =>
      rw [hy] at hx
      obtain ⟨x0, hx0, hx0t⟩ := ih x hx
      exact ⟨x0, List.mem_cons_of_mem y hx0, hx0t⟩
    | some y1 =>
      rw [hy] at hx
      rcases List.mem_cons.mp hx with rfl | hmem
      · exact ⟨y, List.mem_cons_self y rest, hy⟩
      · obtain ⟨x0, hx0, hx0t⟩ := ih x hmem
        exact ⟨x0, List.mem_cons_of_mem y hx0, hx0t⟩

theorem tickEntries_countP_zero (now t s : Int) (k : Ip6) :
    ∀ l : List MapEntry, (∀ x ∈ l, x.sess.herIp6 ≠ k) →
    (tickEntries now t s l).2.countP (fun ev => evTarget ev == k) = 0 := by
  intro l
  induction l with
  | nil => intro _; rfl
  | cons x rest ih =>
    intro h
    rw [tickEntries_cons]
    simp only [List.countP_append]
    rw [ih (fun y hy => h y (List.mem_cons_of_mem x hy))]
    have hzero : (tickEntry now t s x).2.countP (fun ev => evTarget ev == k) = 0 := by
      apply List.countP_eq_zero.mpr
      intro ev hev
      have ht := tickEntry_events_target now t s x ev hev
      simp [ht, h x (List.mem_cons_self x rest)]
    rw [hzero]

theorem tickEntries_countP_unique (now t s : Int) (k : Ip6) :
    ∀ l : List MapEntry,
    (l.map (fun x => x.key)).Nodup →
    (∀ x ∈ l, x.sess.herIp6 = x.key) →
    ∀ e ∈ l, e.key = k →
    (tickEntries now t s l).2.countP (fun ev => evTarget ev == k) =
      (tickEntry now t s e).2.countP (fun ev => evTarget ev == k) := by
  intro l
  induction l with
  | nil => intro _ _ e he; cases he
  | cons x rest ih =>
    intro hnd hip e he hek
    simp only [List.map_cons, List.nodup_cons] at hnd
    rw [tickEntries_cons]
    simp only [List.countP_append]
    rcases List.mem_cons.mp he with rfl | hmem
    · rw [tickEntries_countP_zero now t s k rest (fun y hy => by
        rw [hip y (List.mem_cons_of_mem e hy)]
        intro hyk
        exact hnd.1 (by
          rw [hek, ← hyk]
          exact List.mem_map_of_mem (fun z => z.key) hy))]
      omega
    · rw [ih hnd.2 (fun y hy => hip y (List.mem_cons_of_mem x hy)) e hmem hek]
      have hxk : x.sess.herIp6 ≠ k := by
        rw [hip x (List.mem_cons_self x rest)]
        intro hxx
        exact hnd.1 (by
          rw [hxx, ← hek]
          exact List.mem_map_of_mem (fun z => z.key) hmem)
      have hzero : (tickEntry now t s x).2.countP (fun ev => evTarget ev == k) = 0 := by
        apply List.countP_eq_zero.mpr
        intro ev hev
        have := tickEntry_events_target now t s x ev hev
        simp [this, hxk]
      omega

/-- C1: `get_or_create` on an already-existing session: (1) with metric
`DEAD_LINK` and a matching `send_switch_label`, the label is zeroed and the
metric set to `DEAD_LINK` when send = recv, else the label swaps to
`recv_switch_label` with metric `SM_INCOMING`; (2) otherwise with
`metric <= current` and `label != 0`, label and metric are replaced and the
version is replaced only when the caller's version is non-zero;
consequently any update with `label != 0` and `metric != DEAD_LINK` never
increases the metric. -/
theorem claim1_metric_update (a : Nat → Ip6) (now : Int) (sm : SessionManager)
    (ip6 : Ip6) (pubKey version label metric : Nat) (maintain : Bool)
    (l1 : List MapEntry) (e : MapEntry)
    (hv : ip6.validAddress = true)
    (hfound : findCheck a (fun x => x.key == ip6) sm.ifaceMap = some (l1, some e)) :
    getSession a now sm ip6 pubKey version label metric maintain =
      some ({ sm with ifaceMap :=
                setSess ip6 (sessionUpdate e.sess version label metric maintain) l1 },
            sessionUpdate e.sess version label metric maintain, []) ∧
    (metric = Metric_DEAD_LINK → e.sess.sendSwitchLabel = label →
      ((e.sess.sendSwitchLabel = e.sess.recvSwitchLabel →
        (sessionUpdate e.sess version label metric maintain).sendSwitchLabel = 0 ∧
        (sessionUpdate e.sess version label metric maintain).metric = Metric_DEAD_LINK) ∧
       (e.sess.sendSwitchLabel ≠ e.sess.recvSwitchLabel →
        (sessionUpdate e.sess version label metric maintain).sendSwitchLabel =
          e.sess.recvSwitchLabel ∧
        (sessionUpdate e.sess version label metric maintain).metric =
          Metric_SM_INCOMING))) ∧
    (metric ≠ Metric_DEAD_LINK → metric ≤ e.sess.metric → label ≠ 0 →
      (sessionUpdate e.sess version label metric maintain).sendSwitchLabel = label ∧
      (sessionUpdate e.sess version label metric maintain).metric = metric ∧
      (sessionUpdate e.sess version label metric maintain).version =
        (if version ≠ 0 then version else e.sess.version)) ∧
    (label ≠ 0 → metric ≠ Metric_DEAD_LINK →
      (sessionUpdate e.sess version label metric maintain).metric ≤ e.sess.metric) := by
  refine ⟨?_, ?_, ?_, ?_⟩
  · simp [getSession, hv, hfound]
  · intro h1 h2
    constructor
    · intro h3
      simp only [sessionUpdate]
      rw [if_pos h1, if_pos h2, if_pos h3]
      exact ⟨rfl, rfl⟩
    · intro h3
      simp only [sessionUpdate]
      rw [if_pos h1, if_pos h2, if_neg h3]
      exact ⟨rfl, rfl⟩
  · intro h1 h2 h3
    simp only [sessionUpdate]
    rw [if_neg h1, if_pos ⟨h2, h3⟩]
    refine ⟨rfl, rfl, ?_⟩
    by_cases hvz : version ≠ 0
    · rw [if_pos hvz, if_pos hvz]
    · rw [if_neg hvz, if_neg hvz]
      push_neg at hvz
      simp only [hvz, ne_eq]
      split <;> omega
  · intro h1 h2
    simp only [sessionUpdate]
    rw [if_neg h2]
    by_cases hm : metric ≤ e.sess.metric
    · rw [if_pos ⟨hm, h1⟩]
      exact hm
    · rw [if_neg (fun hand => hm hand.1)]

theorem claim1_metric_update_witness :
    (sessionUpdate exSess 0 9 50 false).metric ≤ exSess.metric :=
  (claim1_metric_update exA 0 exSM exIp 1 0 9 50 false [exEntry] exEntry
    (by decide) (by decide)).2.2.2 (by decide) (by decide)

/-- C8: while `INITIALIZING`, the pathfinder accepts only `CONNECT`
(which constructs the DHT subsystems and moves to `RUNNING`): any other
event kind hits `Assert_true(ev == PFChan_Core_CONNECT)`, a fatal
assertion, instead of being dispatched or ignored. -/
theorem claim8_pathfinder_initializing (pf : Pathfinder) (ev payloadLen : Nat)
    (hst : pf.state = Pathfinder_state_INITIALIZING) :
    (ev ≠ PFChan_Core_CONNECT → pfIncomingFromEventIf pf ev payloadLen = none) ∧
    (ev = PFChan_Core_CONNECT → payloadLen = PFChan_Core_Connect_SIZE →
      pfIncomingFromEventIf pf ev payloadLen =
        some ({ pf with state := Pathfinder_state_RUNNING, dhtConstructed := true },
              PfAction.init)) := by
  constructor
  · intro hne
    simp [pfIncomingFromEventIf, hst, hne]
  · intro he hlen
    simp [pfIncomingFromEventIf, hst, he, pfConnected, hlen]

theorem claim8_pathfinder_initializing_witness :
    pfIncomingFromEventIf ⟨Pathfinder_state_INITIALIZING, false⟩ PFChan_Core_CONNECT
        PFChan_Core_Connect_SIZE =
      some (⟨Pathfinder_state_RUNNING, true⟩, PfAction.init) ∧
    pfIncomingFromEventIf ⟨Pathfinder_state_INITIALIZING, false⟩ PFChan_Core_PING 0 =
      none :=
  ⟨(claim8_pathfinder_initializing ⟨Pathfinder_state_INITIALIZING, false⟩
      PFChan_Core_CONNECT PFChan_Core_Connect_SIZE rfl).2 rfl rfl,
   (claim8_pathfinder_initializing ⟨Pathfinder_state_INITIALIZING, false⟩
      PFChan_Core_PING 0 rfl).1 (by decide)⟩

/-- C10: a `SESSIONS` event (which must carry an empty payload) makes the
session manager emit exactly one `SESSION` event per live session, in
table order, each addressed to the requesting pathfinder, and leaves the
session table unchanged. -/
theorem claim10_sessions_snapshot (sm : SessionManager) (sourcePf payloadLen : Nat) :
    (payloadLen ≠ 0 → smSessionsEvent sm sourcePf payloadLen = none) ∧
    (payloadLen = 0 →
      ∃ evs, smSessionsEvent sm sourcePf payloadLen = some (sm, evs) ∧
        evs.length = sm.ifaceMap.length ∧
        ∀ i : Nat, evs[i]? = (sm.ifaceMap[i]?).map (fun e =>
          Event.node CoreEv.SESSION sourcePf (pfNodeOf e.sess.sendSwitchLabel e.sess))) := by
  constructor
  · intro hne
    simp [smSessionsEvent, hne]
  · intro he
    subst he
    refine ⟨sm.ifaceMap.map (fun e =>
        Event.node CoreEv.SESSION sourcePf (pfNodeOf e.sess.sendSwitchLabel e.sess)),
      ?_, by simp, ?_⟩
    · simp [smSessionsEvent]
    · intro i
      simp [List.getElem?_map]

theorem claim10_sessions_snapshot_witness :
    ∃ evs, smSessionsEvent exSM 7 0 = some (exSM, evs) ∧
      evs.length = exSM.ifaceMap.length ∧
      ∀ i : Nat, evs[i]? = (exSM.ifaceMap[i]?).map (fun e =>
        Event.node CoreEv.SESSION 7 (pfNodeOf e.sess.sendSwitchLabel e.sess)) :=
  (claim10_sessions_snapshot exSM 7 0).2 rfl

/-- C9: a CJDHT payload reaching `needsLookup` terminates the process via
`Assert_true(DataHeader_getContentType(dataHeader) != ContentType_CJDHT)`
instead of being buffered, so the buffered-message table only ever holds
non-CJDHT messages. -/
theorem claim9_no_cjdht_buffered (now : Int) (sm : SessionManager) (m : InsideMsg)
    (su : Bool) :
    (m.contentType = ContentType_CJDHT → needsLookup now sm m su = none) ∧
    (∀ sm1 evs, needsLookup now sm m su = some (sm1, evs) →
      (∀ b ∈ sm.bufMap, b.contentType ≠ ContentType_CJDHT) →
      ∀ b ∈ sm1.bufMap, b.contentType ≠ ContentType_CJDHT) := by
  constructor
  · intro hc
    by_cases hl : m.len < RouteHeader_SIZE + DataHeader_SIZE
    · simp [needsLookup, hl]
    · simp [needsLookup, hl, hc]
  · intro sm1 evs h hpre
    by_cases hl : m.len < RouteHeader_SIZE + DataHeader_SIZE
    · simp [needsLookup, hl] at h
    · by_cases hc : m.contentType = ContentType_CJDHT
      · simp [needsLookup, hl, hc] at h
      · simp only [needsLookup] at h
        rw [if_neg hl, if_neg hc] at h
        by_cases h1 : sm.maxBufferedMessages ≤ (removeBufKey m.ip6 sm.bufMap).length
        · rw [if_pos h1] at h
          by_cases h2 : sm.maxBufferedMessages ≤
              (checkTimedOutBuffers now (removeBufKey m.ip6 sm.bufMap)).length
          · rw [if_pos h2] at h
            rw [Option.some.injEq, Prod.mk.injEq] at h
            obtain ⟨rfl, rfl⟩ := h
            intro b hb
            unfold checkTimedOutBuffers at hb
            exact hpre b (mem_removeBufKey m.ip6 sm.bufMap b
              (List.mem_of_mem_filter hb))
          · rw [if_neg h2] at h
            rw [Option.some.injEq, Prod.mk.injEq] at h
            obtain ⟨rfl, rfl⟩ := h
            intro b hb
            rcases List.mem_append.mp hb with hb1 | hb1
            · unfold checkTimedOutBuffers at hb1
              exact hpre b (mem_removeBufKey m.ip6 sm.bufMap b
                (List.mem_of_mem_filter hb1))
            · rcases List.mem_singleton.mp hb1 with rfl
              exact hc
        · rw [if_neg h1] at h
          rw [Option.some.injEq, Prod.mk.injEq] at h
          obtain ⟨rfl, rfl⟩ := h
          intro b hb
          rcases List.mem_append.mp hb with hb1 | hb1
          · exact hpre b (mem_removeBufKey m.ip6 sm.bufMap b hb1)
          · rcases List.mem_singleton.mp hb1 with rfl
            exact hc

theorem claim9_no_cjdht_buffered_witness :
    needsLookup 0 exSM ⟨100, exIp, 3, ContentType_CJDHT, 42⟩ true = none :=
  (claim9_no_cjdht_buffered 0 exSM ⟨100, exIp, 3, ContentType_CJDHT, 42⟩ true).1 rfl

/-- C5: `needsLookup` keeps the buffered-message table with at most one
entry per destination ip6 and within `maxBufferedMessages`: a second
arrival for an ip6 displaces the first, and on overflow the 10-second
sweep runs first and the new message is dropped (no insertion, no search
event) if the table is still full. -/
theorem claim5_buffer_invariants (now : Int) (sm : SessionManager) (m : InsideMsg)
    (su : Bool) (sm1 : SessionManager) (evs : List Event)
    (h : needsLookup now sm m su = some (sm1, evs)) :
    ((sm.bufMap.map (fun b => b.key)).Nodup →
      (sm1.bufMap.map (fun b => b.key)).Nodup) ∧
    (sm.bufMap.length ≤ sm.maxBufferedMessages →
      sm1.bufMap.length ≤ sm.maxBufferedMessages) ∧
    (sm.maxBufferedMessages ≤
        (checkTimedOutBuffers now (removeBufKey m.ip6 sm.bufMap)).length →
      sm1.bufMap = checkTimedOutBuffers now (removeBufKey m.ip6 sm.bufMap) ∧
      evs = []) := by
  have hsub1 := removeBufKey_sublist m.ip6 sm.bufMap
  have hsub2 : List.Sublist (checkTimedOutBuffers now (removeBufKey m.ip6 sm.bufMap))
      (removeBufKey m.ip6 sm.bufMap) := List.filter_sublist _
  by_cases hl : m.len < RouteHeader_SIZE + DataHeader_SIZE
  · simp [needsLookup, hl] at h
  · by_cases hc : m.contentType = ContentType_CJDHT
    · simp [needsLookup, hl, hc] at h
    · simp only [needsLookup] at h
      rw [if_neg hl, if_neg hc] at h
      by_cases h1 : sm.maxBufferedMessages ≤ (removeBufKey m.ip6 sm.bufMap).length
      · rw [if_pos h1] at h
        by_cases h2 : sm.maxBufferedMessages ≤
            (checkTimedOutBuffers now (removeBufKey m.ip6 sm.bufMap)).length
        · rw [if_pos h2] at h
          rw [Option.some.injEq, Prod.mk.injEq] at h
          obtain ⟨rfl, rfl⟩ := h
          refine ⟨?_, ?_, fun _ => ⟨rfl, rfl⟩⟩
          · intro hnd
            exact hnd.sublist ((hsub2.trans hsub1).map (fun b => b.key))
          · intro hlen
            exact le_trans (hsub2.trans hsub1).length_le hlen
        · rw [if_neg h2] at h
          rw [Option.some.injEq, Prod.mk.injEq] at h
          obtain ⟨rfl, rfl⟩ := h
          push_neg at h2
          refine ⟨?_, ?_, fun hfull => absurd hfull (by omega)⟩
          · intro hnd
            rw [List.map_append]
            rw [List.nodup_append]
            refine ⟨hnd.sublist ((hsub2.trans hsub1).map (fun b => b.key)),
              List.nodup_singleton _, ?_⟩
            intro x hx
            simp only [List.map_cons, List.map_nil, List.mem_singleton]
            intro hxk
            subst hxk
            exact absurd ((hsub2.map (fun b => b.key)).mem hx)
              (not_mem_keys_removeBufKey m.ip6 sm.bufMap hnd)
          · intro _
            rw [List.length_append]
            simp only [List.length_singleton]
            omega
      · rw [if_neg h1] at h
        rw [Option.some.injEq, Prod.mk.injEq] at h
        obtain ⟨rfl, rfl⟩ := h
        push_neg at h1
        refine ⟨?_, ?_, fun hfull =>
          absurd (le_trans hfull hsub2.length_le) (by omega)⟩
        · intro hnd
          rw [List.map_append]
          rw [List.nodup_append]
          refine ⟨hnd.sublist (hsub1.map (fun b => b.key)),
            List.nodup_singleton _, ?_⟩
          intro x hx
          simp only [List.map_cons, List.map_nil, List.mem_singleton]
          intro hxk
          subst hxk
          exact absurd hx (not_mem_keys_removeBufKey m.ip6 sm.bufMap hnd)
        · intro _
          rw [List.length_append]
          simp only [List.length_singleton]
          omega

theorem claim5_buffer_invariants_witness :
    ((exSM.bufMap.map (fun b => b.key)).Nodup →
      (([] ++ [⟨exIp, 0, 0, 42⟩] : List BufEntry).map (fun b => b.key)).Nodup) ∧
    (exSM.bufMap.length ≤ exSM.maxBufferedMessages →
      ([] ++ [⟨exIp, 0, 0, 42⟩] : List BufEntry).length ≤ exSM.maxBufferedMessages) ∧
    (exSM.maxBufferedMessages ≤
        (checkTimedOutBuffers 0 (removeBufKey exIp exSM.bufMap)).length →
      ([] ++ [⟨exIp, 0, 0, 42⟩] : List BufEntry) =
        checkTimedOutBuffers 0 (removeBufKey exIp exSM.bufMap) ∧
      ([triggerSearchEvent exIp 3] : List Event) = []) := by
  have h := claim5_buffer_invariants 0 exSM ⟨100, exIp, 3, 0, 42⟩ true
    { exSM with bufMap := [] ++ [⟨exIp, 0, 0, 42⟩] }
    [triggerSearchEvent exIp 3] (by decide)
  exact h

/-- C2 (counterexample): a live session that is not timed out, whose
maintained-search step does not fire, and whose crypto session has not yet
received the peer's key — yet the periodic tick emits no event at all
(in particular no `UNSETUP_SESSION`): when `maintainSession` is false the
`checkTimedOutSessions` loop does nothing for the session (the
`if (!sess->pub.maintainSession)` branch is empty). -/
theorem claim2_unsetup_counterexample :
    (⟨exIp, 4, cSess⟩ : MapEntry) ∈ cSM.ifaceMap ∧
    ((0 : Int) - cSess.timeOfKeepAliveIn ≤ cSM.sessionTimeoutMilliseconds) ∧
    (¬ (cSess.maintainSession = true ∧
        cSM.sessionSearchAfterMilliseconds ≤ (0 : Int) - cSess.lastSearchTime)) ∧
    cSess.caState < CryptoAuth_State_RECEIVED_KEY ∧
    (checkTimedOutSessions 0 cSM).2 = [] := by
  refine ⟨by decide, by decide, by decide, by decide, ?_⟩
  rfl

/-- C2 (amended): on a periodic tick, for every live session that is not
timed out, whose `maintain_session` flag is set, for which the search step
does not fire, whose crypto session has not yet received the peer's key,
and which has a non-zero version and at least one non-zero switch label,
an `UNSETUP_SESSION` event is emitted for that session. -/
theorem claim2_unsetup_amended (now : Int) (sm : SessionManager) (e : MapEntry)
    (hmem : e ∈ sm.ifaceMap)
    (h1 : now - e.sess.timeOfKeepAliveIn ≤ sm.sessionTimeoutMilliseconds)
    (h2 : e.sess.maintainSession = true)
    (h3 : now - e.sess.lastSearchTime < sm.sessionSearchAfterMilliseconds)
    (h4 : e.sess.caState < CryptoAuth_State_RECEIVED_KEY)
    (h5 : e.sess.version ≠ 0)
    (h6 : e.sess.sendSwitchLabel ≠ 0 ∨ e.sess.recvSwitchLabel ≠ 0) :
    Event.node CoreEv.UNSETUP_SESSION 0xffffffff
      { path := if e.sess.sendSwitchLabel ≠ 0 then e.sess.sendSwitchLabel
                else e.sess.recvSwitchLabel,
        metric := e.sess.metric, version := e.sess.version,
        publicKey := e.sess.herPublicKey, ip6 := e.sess.herIp6 }
      ∈ (checkTimedOutSessions now sm).2 := by
  apply tickEntries_mem_events now sm.sessionTimeoutMilliseconds
    sm.sessionSearchAfterMilliseconds sm.ifaceMap e hmem
  unfold tickEntry
  rw [if_neg (by omega), if_neg (by simp [h2]), if_neg (by omega), if_pos h4]
  unfold unsetupSessionEvents
  rw [if_neg (by
    push_neg
    exact ⟨h5, fun hs => h6.resolve_left (fun hne => hne hs)⟩)]
  exact List.mem_singleton.mpr rfl

theorem claim2_unsetup_amended_witness :
    Event.node CoreEv.UNSETUP_SESSION 0xffffffff
      { path := if exSess.sendSwitchLabel ≠ 0 then exSess.sendSwitchLabel
                else exSess.recvSwitchLabel,
        metric := exSess.metric, version := exSess.version,
        publicKey := exSess.herPublicKey, ip6 := exSess.herIp6 }
      ∈ (checkTimedOutSessions 0 exSM).2 :=
  claim2_unsetup_amended 0 exSM exEntry (by decide) (by decide) (by decide)
    (by decide) (by decide) (by decide) (Or.inl (by decide))

/-- C6: a session whose keep-alive lag exceeds the timeout gets a
`SESSION_ENDED` event and is destroyed: it disappears from both indexes
(no surviving entry has its key or slot handle), a lookup by its
`receiveHandle` returns none, and the tick's event stream mentions the
session exactly once (the `SESSION_ENDED` itself), so no event after it
references the session. -/
theorem claim6_session_timeout (a : Nat → Ip6) (now : Int) (sm : SessionManager)
    (e : MapEntry)
    (hwf : sm.wf a)
    (hmem : e ∈ sm.ifaceMap)
    (hto : sm.sessionTimeoutMilliseconds < now - e.sess.timeOfKeepAliveIn) :
    Event.node CoreEv.SESSION_ENDED 0xffffffff
        (pfNodeOf e.sess.sendSwitchLabel e.sess)
      ∈ (checkTimedOutSessions now sm).2 ∧
    (∀ x ∈ (checkTimedOutSessions now sm).1.ifaceMap,
      x.key ≠ e.key ∧ x.handle ≠ e.handle) ∧
    sessionForHandle a e.sess.receiveHandle (checkTimedOutSessions now sm).1 =
      some ((checkTimedOutSessions now sm).1, none) ∧
    (checkTimedOutSessions now sm).2.countP
      (fun ev => evTarget ev == e.key) = 1 := by
  obtain ⟨hkeys, hhandles, hF, hprops⟩ := hwf
  have hek := hprops e hmem
  have htick : tickEntry now sm.sessionTimeoutMilliseconds
      sm.sessionSearchAfterMilliseconds e =
      (none, [Event.node CoreEv.SESSION_ENDED 0xffffffff
        (pfNodeOf e.sess.sendSwitchLabel e.sess)]) := by
    unfold tickEntry
    rw [if_pos hto]
  have hsurv : ∀ x ∈ (checkTimedOutSessions now sm).1.ifaceMap,
      x.key ≠ e.key ∧ x.handle ≠ e.handle := by
    intro x hx
    obtain ⟨x0, hx0mem, hx0t⟩ := tickEntries_surv_origin now
      sm.sessionTimeoutMilliseconds sm.sessionSearchAfterMilliseconds
      sm.ifaceMap x hx
    have hfields := tickEntry_some_fields now sm.sessionTimeoutMilliseconds
      sm.sessionSearchAfterMilliseconds x0 x hx0t
    have hx0ne : x0 ≠ e := by
      intro hcontra
      subst hcontra
      rw [htick] at hx0t
      cases hx0t
    constructor
    · rw [hfields.1]
      intro hkk
      exact hx0ne (List.inj_on_of_nodup_map hkeys hx0mem hmem hkk)
    · rw [hfields.2.1]
      intro hhh
      exact hx0ne (List.inj_on_of_nodup_map hhandles hx0mem hmem hhh)
  have hslot : slotOf sm.firstHandle e.sess.receiveHandle = e.handle := by
    rw [hek.1]
    exact slotOf_receive sm.firstHandle e.handle hF hek.2.1
  refine ⟨?_, hsurv, ?_, ?_⟩
  · apply tickEntries_mem_events now sm.sessionTimeoutMilliseconds
      sm.sessionSearchAfterMilliseconds sm.ifaceMap e hmem
    rw [htick]
    exact List.mem_singleton.mpr rfl
  · have hnone : ∀ x ∈ (checkTimedOutSessions now sm).1.ifaceMap,
        (fun y => y.handle ==
          slotOf (checkTimedOutSessions now sm).1.firstHandle
            e.sess.receiveHandle) x = false := by
      intro x hx
      have hne := (hsurv x hx).2
      have hfh : (checkTimedOutSessions now sm).1.firstHandle = sm.firstHandle := rfl
      simp only [hfh, hslot]
      simp [hne]
    unfold sessionForHandle
    rw [findCheck_none_of a _ _ hnone]
    rfl
  · show (tickEntries now sm.sessionTimeoutMilliseconds
      sm.sessionSearchAfterMilliseconds sm.ifaceMap).2.countP
        (fun ev => evTarget ev == e.key) = 1
    rw [tickEntries_countP_unique now sm.sessionTimeoutMilliseconds
      sm.sessionSearchAfterMilliseconds e.key sm.ifaceMap hkeys
      (fun x hx => (hprops x hx).2.2.1) e hmem rfl]
    rw [htick]
    simp [List.countP_cons, evTarget, pfNodeOf, hek.2.2.1]

theorem claim6_session_timeout_witness :
    Event.node CoreEv.SESSION_ENDED 0xffffffff
        (pfNodeOf tSess.sendSwitchLabel tSess)
      ∈ (checkTimedOutSessions 0 tSM).2 ∧
    (∀ x ∈ (checkTimedOutSessions 0 tSM).1.ifaceMap,
      x.key ≠ (⟨exIp, 4, tSess⟩ : MapEntry).key ∧
      x.handle ≠ (⟨exIp, 4, tSess⟩ : MapEntry).handle) ∧
    sessionForHandle exA tSess.receiveHandle (checkTimedOutSessions 0 tSM).1 =
      some ((checkTimedOutSessions 0 tSM).1, none) ∧
    (checkTimedOutSessions 0 tSM).2.countP
      (fun ev => evTarget ev == (⟨exIp, 4, tSess⟩ : MapEntry).key) = 1 :=
  claim6_session_timeout exA 0 tSM ⟨exIp, 4, tSess⟩
    (by unfold SessionManager.wf; decide) (by decide) (by decide)

theorem getSession_create (a : Nat → Ip6) (now : Int) (sm : SessionManager)
    (ip6 : Ip6) (pubKey version label metric : Nat) (maintain : Bool)
    (hv : ip6.validAddress = true)
    (hnone : ∀ x ∈ sm.ifaceMap, x.key ≠ ip6)
    (hkey : pubKey ≠ 0 → a pubKey = ip6) :
    getSession a now sm ip6 pubKey version label metric maintain =
      some ({ sm with
                ifaceMap := sm.ifaceMap ++
                  [⟨ip6, sm.nextHandle,
                    newSession now ((sm.nextHandle + sm.firstHandle) % 2 ^ 32)
                      ip6 pubKey version label metric maintain⟩],
                nextHandle := sm.nextHandle + 1 },
            newSession now ((sm.nextHandle + sm.firstHandle) % 2 ^ 32)
              ip6 pubKey version label metric maintain,
            [Event.node CoreEv.SESSION 0xffffffff
              (pfNodeOf label (newSession now ((sm.nextHandle + sm.firstHandle) % 2 ^ 32)
                ip6 pubKey version label metric maintain))]) := by
  have hfc : findCheck a (fun x => x.key == ip6) sm.ifaceMap =
      some (sm.ifaceMap, none) :=
    findCheck_none_of a _ sm.ifaceMap (fun x hx => by simp [hnone x hx])
  unfold getSession
  rw [if_neg (by simp [hv])]
  simp only [hfc]
  rw [if_neg (by rintro ⟨hp1, hp2⟩; exact hp2 (hkey hp1))]

theorem postDecrypt_spec_fail (now : Int) (derr cast : Nat) (f : SwitchFrame)
    (setup : Bool) (key : Ip6) (sess : Session) (sm : SessionManager)
    (evs : List Event) (hderr : derr ≠ 0) :
    postDecrypt now derr cast f setup key sess sm evs =
      some (sm, evs, SwitchResult.failedDecryptReply
        { suppressErrors := true, shVersion := SwitchHeader_CURRENT_VERSION,
          label := bitReverse64 f.label, handleWord := 0xffffffff,
          ctrlType := Control_ERROR, errorCode := Error_AUTHENTICATION,
          causeLabel := f.label, first16 := f.first16,
          decryptErr := derr, cryptoState := cast }) := by
  simp only [postDecrypt]
  rw [if_pos hderr]

theorem postDecryptSess3_fields (now : Int) (cast : Nat) (f : SwitchFrame)
    (setup : Bool) (sess : Session) :
    (postDecryptSess3 now cast f setup sess).metric = sess.metric ∧
    (postDecryptSess3 now cast f setup sess).version = sess.version ∧
    (postDecryptSess3 now cast f setup sess).maintainSession = sess.maintainSession ∧
    (postDecryptSess3 now cast f setup sess).sendSwitchLabel =
      (if sess.sendSwitchLabel = 0 then bitReverse64 f.label
       else sess.sendSwitchLabel) ∧
    (postDecryptSess3 now cast f setup sess).recvSwitchLabel =
      sess.recvSwitchLabel := by
  simp only [postDecryptSess3]
  cases setup <;>
    by_cases hs0 : sess.sendSwitchLabel = 0 <;>
      simp only [Bool.false_eq_true, if_false, if_true] <;>
      [rw [if_pos hs0, if_pos hs0]; rw [if_neg hs0, if_neg hs0];
       rw [if_pos hs0, if_pos hs0]; rw [if_neg hs0, if_neg hs0]] <;>
      exact ⟨rfl, rfl, rfl, rfl, rfl⟩

theorem postDecrypt_ne_none (now : Int) (derr cast : Nat) (f : SwitchFrame)
    (setup : Bool) (key : Ip6) (sess : Session) (sm : SessionManager)
    (evs : List Event)
    (hpl : ¬ f.plainLen < RouteHeader_SIZE + DataHeader_SIZE) :
    postDecrypt now derr cast f setup key sess sm evs ≠ none := by
  simp only [postDecrypt]
  by_cases h1 : derr ≠ 0
  · rw [if_pos h1]
    simp
  · rw [if_neg h1, if_neg hpl]
    split <;> simp

theorem postDecrypt_map_fields (now : Int) (derr cast : Nat) (f : SwitchFrame)
    (setup : Bool) (key : Ip6) (sess : Session) (sm : SessionManager)
    (evs : List Event) (sm1 : SessionManager) (evs1 : List Event)
    (res : SwitchResult)
    (h : postDecrypt now derr cast f setup key sess sm evs = some (sm1, evs1, res)) :
    sm1.ifaceMap = sm.ifaceMap ∨
    ∃ s1 : Session, sm1.ifaceMap = setSess key s1 sm.ifaceMap ∧
      s1.metric = sess.metric ∧ s1.version = sess.version ∧
      s1.maintainSession = sess.maintainSession ∧
      s1.sendSwitchLabel = (if sess.sendSwitchLabel = 0 then bitReverse64 f.label
                            else sess.sendSwitchLabel) := by
  obtain ⟨hm, hv, hmt, hsl, hrl⟩ := postDecryptSess3_fields now cast f setup sess
  simp only [postDecrypt] at h
  by_cases h1 : derr ≠ 0
  · rw [if_pos h1] at h
    rw [Option.some.injEq, Prod.mk.injEq] at h
    left
    rw [← h.1]
  · rw [if_neg h1] at h
    by_cases h2 : f.plainLen < RouteHeader_SIZE + DataHeader_SIZE
    · rw [if_pos h2] at h
      cases h
    · rw [if_neg h2] at h
      right
      by_cases h3 : bitReverse64 f.label ≠
          (postDecryptSess3 now cast f setup sess).recvSwitchLabel
      · rw [if_pos h3] at h
        rw [Option.some.injEq, Prod.mk.injEq] at h
        exact ⟨{ postDecryptSess3 now cast f setup sess with
                  recvSwitchLabel := bitReverse64 f.label },
               by rw [← h.1], hm, hv, hmt, hsl⟩
      · rw [if_neg h3] at h
        rw [Option.some.injEq, Prod.mk.injEq] at h
        exact ⟨postDecryptSess3 now cast f setup sess,
               by rw [← h.1], hm, hv, hmt, hsl⟩

/-- C3: for a switch-side handshake frame (`nonce_or_handle <= 3`, long
enough to hold the crypto header): if the claimed public key does not
derive a 0xFC address, or equals our own key, the frame is dropped with no
session created or modified; otherwise `get_or_create` runs with the
bit-reversed switch label, metric `SM_INCOMING`, version 0 and maintain 0
(shown here on a fresh destination: the session in the resulting table
carries exactly those parameters). -/
theorem claim3_handshake_ingress (a : Nat → Ip6) (myPub : Nat) (now : Int)
    (derr cast : Nat) (sm : SessionManager) (f : SwitchFrame)
    (hn : f.nonceOrHandle ≤ 3)
    (hl : SwitchHeader_SIZE + CryptoHeader_SIZE + 4 ≤ f.len)
    (hpl : RouteHeader_SIZE + DataHeader_SIZE ≤ f.plainLen) :
    (((a f.pubKey).validAddress = false ∨ f.pubKey = myPub) →
      incomingFromSwitchIf a myPub now derr cast sm f =
        some (sm, [], SwitchResult.drop)) ∧
    ((a f.pubKey).validAddress = true → f.pubKey ≠ myPub →
      (∀ x ∈ sm.ifaceMap, x.key ≠ a f.pubKey) →
      ∃ sm1 evs res,
        incomingFromSwitchIf a myPub now derr cast sm f = some (sm1, evs, res) ∧
        ∃ x ∈ sm1.ifaceMap, x.key = a f.pubKey ∧
          x.sess.metric = Metric_SM_INCOMING ∧
          x.sess.sendSwitchLabel = bitReverse64 f.label ∧
          x.sess.version = 0 ∧
          x.sess.maintainSession = false) := by
  have hl136 : 136 ≤ f.len := by
    unfold SwitchHeader_SIZE CryptoHeader_SIZE at hl
    omega
  have hg1 : ¬ f.len < SwitchHeader_SIZE + 4 := by
    unfold SwitchHeader_SIZE
    omega
  have hg2 : f.nonceOrHandle ≠ 0xffffffff := by omega
  have hg3 : ¬ f.len - SwitchHeader_SIZE < 4 + 20 := by
    unfold SwitchHeader_SIZE
    omega
  have hg4 : ¬ 3 < f.nonceOrHandle := by omega
  have hg5 : ¬ f.len - SwitchHeader_SIZE < CryptoHeader_SIZE + 4 := by
    unfold SwitchHeader_SIZE CryptoHeader_SIZE
    omega
  constructor
  · intro hbad
    simp only [incomingFromSwitchIf]
    rw [if_neg hg1, if_neg hg2, if_neg hg3, if_neg hg4, if_neg hg5]
    by_cases hva : (a f.pubKey).validAddress = true
    · have hbad2 : f.pubKey = myPub := by
        rcases hbad with hbad | hbad
        · rw [hva] at hbad
          cases hbad
        · exact hbad
      rw [if_neg (fun hcon => hcon hva), if_pos hbad2]
    · rw [if_pos hva]
  · intro hfc hnotmine hfresh
    simp only [incomingFromSwitchIf]
    rw [if_neg hg1, if_neg hg2, if_neg hg3, if_neg hg4, if_neg hg5,
      if_neg (fun hcon => hcon hfc), if_neg hnotmine]
    simp only [getSession_create a now sm (a f.pubKey) f.pubKey 0
      (bitReverse64 f.label) Metric_SM_INCOMING false hfc hfresh (fun _ => rfl)]
    set nSess := newSession now ((sm.nextHandle + sm.firstHandle) % 2 ^ 32)
      (a f.pubKey) f.pubKey 0 (bitReverse64 f.label) Metric_SM_INCOMING false
      with hnS
    set smNew : SessionManager := { sm with
      ifaceMap := sm.ifaceMap ++ [⟨a f.pubKey, sm.nextHandle, nSess⟩],
      nextHandle := sm.nextHandle + 1 } with hsmNew
    set evsNew : List Event := [Event.node CoreEv.SESSION 0xffffffff
      (pfNodeOf (bitReverse64 f.label) nSess)] with hevsNew
    cases hpd : postDecrypt now derr cast f true (a f.pubKey) nSess smNew evsNew with
    | none =>
      exact absurd hpd (postDecrypt_ne_none now derr cast f true (a f.pubKey)
        nSess smNew evsNew (Nat.not_lt.mpr hpl))
    | some t =>
      obtain ⟨sm1, evs1, res⟩ := t
      refine ⟨sm1, evs1, res, rfl, ?_⟩
      rcases postDecrypt_map_fields now derr cast f true (a f.pubKey) nSess smNew
          evsNew sm1 evs1 res hpd with hsame | ⟨s1, hmap, hmm, hvv, hmt2, hsl2⟩
      · refine ⟨⟨a f.pubKey, sm.nextHandle, nSess⟩, ?_, rfl, rfl, rfl, rfl, rfl⟩
        rw [hsame]
        exact List.mem_append_right _ (List.mem_singleton.mpr rfl)
      · have hset := setSess_append (a f.pubKey) s1 sm.nextHandle nSess
          sm.ifaceMap hfresh
        refine ⟨⟨a f.pubKey, sm.nextHandle, s1⟩, ?_, rfl, ?_, ?_, ?_, ?_⟩
        · rw [hmap]
          rw [show smNew.ifaceMap =
            sm.ifaceMap ++ [⟨a f.pubKey, sm.nextHandle, nSess⟩] from rfl]
          rw [hset]
          exact List.mem_append_right _ (List.mem_singleton.mpr rfl)
        · exact hmm
        · rw [hsl2]
          split <;> rfl
        · exact hvv
        · exact hmt2

theorem claim3_handshake_ingress_witness :
    ∃ sm1 evs res,
      incomingFromSwitchIf exA 99 0 1 4 exSM
        ⟨150, 1, 2, 0, 2, 5, 0, 100, 77⟩ = some (sm1, evs, res) ∧
      ∃ x ∈ sm1.ifaceMap, x.key = exA 2 ∧
        x.sess.metric = Metric_SM_INCOMING ∧
        x.sess.sendSwitchLabel = bitReverse64 1 ∧
        x.sess.version = 0 ∧
        x.sess.maintainSession = false :=
  (claim3_handshake_ingress exA 99 0 1 4 exSM ⟨150, 1, 2, 0, 2, 5, 0, 100, 77⟩
    (by decide) (by decide) (by decide)).2 rfl (by decide) (by decide)

/-- C4 (counterexample): a decrypt failure on a run frame whose on-wire
label is 1 produces a reply whose outer switch-header label is
`bitReverse64 1 = 2 ^ 63` — the bit-reversal of the on-wire label (the
route back to the sender), not the original on-wire label itself as the
claim states: at SessionManager.c:402 `label_be` is captured before line
403 restores the header to its on-wire form. -/
theorem claim4_failed_decrypt_counterexample :
    incomingFromSwitchIf exA 99 0 1 4 exSM c4f =
      some (exSM, [], SwitchResult.failedDecryptReply c4reply) ∧
    c4reply.label ≠ c4f.label := by
  constructor
  · decide
  · decide

/-- C4 (amended): on a decrypt failure for an established-handle frame,
exactly one reply frame goes out on the switch interface (no events are
emitted): its switch header has SuppressErrors set and carries the
bit-reversal of the original on-wire label (the route back to the sender;
the on-wire form itself is embedded in the payload as the error cause),
with the sentinel handle 0xFFFFFFFF, the first 16 bytes of the offending
ciphertext, the 32-bit decrypt error code and the crypto state snapshot;
the session's `time_of_last_in`, `time_of_keepalive_in` and `bytes_in`
are unchanged and the session remains in the table. -/
theorem claim4_failed_decrypt_amended (a : Nat → Ip6) (myPub : Nat) (now : Int)
    (derr cast : Nat) (sm : SessionManager) (f : SwitchFrame)
    (l1 : List MapEntry) (e : MapEntry)
    (hn : 3 < f.nonceOrHandle) (hne : f.nonceOrHandle ≠ 0xffffffff)
    (hl1 : SwitchHeader_SIZE + 4 ≤ f.len)
    (hl2 : SwitchHeader_SIZE + 4 + 20 ≤ f.len)
    (hnonce : 4 ≤ f.innerNonce)
    (hderr : derr ≠ 0)
    (hfind : findCheck a (fun x => x.handle == slotOf sm.firstHandle f.nonceOrHandle)
        sm.ifaceMap = some (l1, some e)) :
    incomingFromSwitchIf a myPub now derr cast sm f =
      some ({ sm with ifaceMap := l1 }, [],
        SwitchResult.failedDecryptReply
          { suppressErrors := true, shVersion := SwitchHeader_CURRENT_VERSION,
            label := bitReverse64 f.label, handleWord := 0xffffffff,
            ctrlType := Control_ERROR, errorCode := Error_AUTHENTICATION,
            causeLabel := f.label, first16 := f.first16,
            decryptErr := derr, cryptoState := cast }) ∧
    e ∈ l1 ∧
    ∃ e0 ∈ sm.ifaceMap, check a e0 = some e ∧
      e.sess.timeOfLastIn = e0.sess.timeOfLastIn ∧
      e.sess.timeOfKeepAliveIn = e0.sess.timeOfKeepAliveIn ∧
      e.sess.bytesIn = e0.sess.bytesIn := by
  obtain ⟨hmeml1, e0, he0, -, hchk⟩ :=
    findCheck_found a (fun x => x.handle == slotOf sm.firstHandle f.nonceOrHandle)
      sm.ifaceMap l1 e hfind
  refine ⟨?_, hmeml1, e0, he0, hchk, ?_⟩
  · simp only [incomingFromSwitchIf]
    rw [if_neg (Nat.not_lt.mpr hl1), if_neg hne,
      if_neg (by unfold SwitchHeader_SIZE at hl2 ⊢; omega), if_pos hn]
    simp only [hfind]
    rw [if_neg (Nat.not_lt.mpr hnonce)]
    exact postDecrypt_spec_fail now derr cast f false e.key e.sess
      { sm with ifaceMap := l1 } [] hderr
  · rcases check_cases a e0 e hchk with h | h <;> subst h <;> exact ⟨rfl, rfl, rfl⟩

theorem claim4_failed_decrypt_amended_witness :
    incomingFromSwitchIf exA 99 0 1 4 exSM c4f =
      some ({ exSM with ifaceMap := [exEntry] }, [],
        SwitchResult.failedDecryptReply
          { suppressErrors := true, shVersion := SwitchHeader_CURRENT_VERSION,
            label := bitReverse64 c4f.label, handleWord := 0xffffffff,
            ctrlType := Control_ERROR, errorCode := Error_AUTHENTICATION,
            causeLabel := c4f.label, first16 := c4f.first16,
            decryptErr := 1, cryptoState := 4 }) ∧
    exEntry ∈ [exEntry] ∧
    ∃ e0 ∈ exSM.ifaceMap, check exA e0 = some exEntry ∧
      exEntry.sess.timeOfLastIn = e0.sess.timeOfLastIn ∧
      exEntry.sess.timeOfKeepAliveIn = e0.sess.timeOfKeepAliveIn ∧
      exEntry.sess.bytesIn = e0.sess.bytesIn :=
  claim4_failed_decrypt_amended exA 99 0 1 4 exSM c4f [exEntry] exEntry
    (by decide) (by decide) (by decide) (by decide) (by decide) (by decide)
    (by decide)

/-- C7: looking a session up by IPv6 and then by the returned session's
own `receiveHandle` round-trips to the identical session, on any
well-formed table. -/
theorem claim7_lookup_roundtrip (a : Nat → Ip6) (sm : SessionManager) (ip6 : Ip6)
    (sm1 : SessionManager) (s : Session)
    (hwf : sm.wf a)
    (h : sessionForIp6 a ip6 sm = some (sm1, some s)) :
    sessionForHandle a s.receiveHandle sm1 = some (sm1, some s) := by
  obtain ⟨-, hhandles, hF, hprops⟩ := hwf
  unfold sessionForIp6 at h
  cases hfc : findCheck a (fun x => x.key == ip6) sm.ifaceMap with
  | none => rw [hfc] at h; cases h
  | some pr =>
    obtain ⟨l1, r⟩ := pr
    rw [hfc] at h
    simp only [Option.some.injEq, Prod.mk.injEq] at h
    obtain ⟨hsm1, hr⟩ := h
    cases r with
    | none => simp at hr
    | some e1 =>
      simp only [Option.map_some', Option.some.injEq] at hr
      subst hsm1
      subst hr
      have hrt := findCheck_roundtrip a (fun x => x.key == ip6) sm.firstHandle hF
        sm.ifaceMap l1 e1 hhandles
        (fun x hx => ⟨(hprops x hx).1, (hprops x hx).2.1⟩) hfc
      unfold sessionForHandle
      rw [show ({ sm with ifaceMap := l1 } : SessionManager).firstHandle =
        sm.firstHandle from rfl]
      rw [show ({ sm with ifaceMap := l1 } : SessionManager).ifaceMap = l1 from rfl]
      rw [hrt]
      rfl

theorem claim7_lookup_roundtrip_witness :
    sessionForHandle exA exSess.receiveHandle exSM = some (exSM, some exSess) :=
  claim7_lookup_roundtrip exA exSM exIp exSM exSess
    (by unfold SessionManager.wf; decide) (by decide)
